import Mathlib

/-!
Verification development for the real-time collaboration backend
(socket event handlers of the shared-canvas application).

The definitions below are a shallow embedding of
src/backend/src/services/socketHandlers.js: JavaScript objects are
modelled as association lists from field names to a small inductive
type of JS values, the per-board document (shapes plus append-only op
log) mirrors the Board model, and each socket event handler becomes a
pure function from the connection state and the server state (boards,
locks, presence) to an updated state together with the ordered list of
events it emits.  Timestamps (Date.now / new Date) are passed in as an
integer parameter.
-/

set_option maxRecDepth 4000

namespace IdeaCanvas

/-- JavaScript values as far as the handlers inspect them: numbers,
strings, booleans, null and undefined.  Composite client-supplied
values the server never inspects (e.g. point arrays) can be encoded
opaquely in any of these constructors. -/
inductive Value where
  | num (n : Int)
  | str (s : String)
  | bool (b : Bool)
  | null
  | undef
deriving DecidableEq, Repr

/-- A JavaScript object: an association list from field names to values
(keys unique by construction, insertion order preserved). -/
abbrev Obj := List (String × Value)

/-- First-match association-list lookup (JS property read, modulo the
undefined default handled by getField). -/
def lookupA {β : Type} : List (String × β) → String → Option β
  | [], _ => none
  | (k', v) :: rest, k => if k' = k then some v else lookupA rest k

/-- Association-list write: replace the first binding of the key, or
append a new binding (JS property write). -/
def setA {β : Type} : List (String × β) → String → β → List (String × β)
  | [], k, v => [(k, v)]
  | (k', v') :: rest, k, v =>
      if k' = k then (k, v) :: rest else (k', v') :: setA rest k v

/-- Association-list delete (JS delete obj[k]). -/
def eraseA {β : Type} (l : List (String × β)) (k : String) : List (String × β) :=
  l.filter (fun p => p.1 ≠ k)

/-- JS property read obj[k]: undefined when the key is absent. -/
def getField (o : Obj) (k : String) : Value :=
  (lookupA o k).getD Value.undef

/-- Object.assign(target, changes): write each binding of changes into
target, in order. -/
def objAssign (target changes : Obj) : Obj :=
  changes.foldl (fun t p => setA t p.1 p.2) target

/-- JS truthiness for the values we model (used for the || defaults). -/
def truthy : Value → Bool
  | .num n => n ≠ 0
  | .str s => s ≠ ""
  | .bool b => b
  | .null => false
  | .undef => false

/-- JS a || b. -/
def jsOr (a b : Value) : Value :=
  if truthy a then a else b

/-- Find the first list element satisfying p, together with its index. -/
def findWithIdx {α : Type} : List α → (α → Bool) → Option (Nat × α)
  | [], _ => none
  | a :: as, p =>
      if p a then some (0, a)
      else (findWithIdx as p).map (fun q => (q.1 + 1, q.2))

/-- Payload of an op, a tagged variant as the opType/payload pair is
used by the code: create carries the full shape object, update carries
shapeId/changes (and, when produced by the update-shape handler, the
oldValues snapshot), delete carries shapeId and the deleted shape
snapshot. -/
inductive OpKind where
  | create (payload : Obj)
  | update (shapeId : Value) (changes : Obj) (oldValues : Option Obj)
  | delete (shapeId : Value) (deletedShape : Obj)
deriving DecidableEq, Repr

/-- One entry of the append-only op log: payload variant plus the
createdBy / createdAt metadata set by the handlers. -/
structure Op where
  kind : OpKind
  createdBy : Option String
  createdAt : Int
deriving DecidableEq, Repr

/-- The per-board document: current shapes array plus append-only op
log (the Board model fields the handlers use). -/
structure BoardDoc where
  shapes : List Obj
  ops : List Op
deriving DecidableEq, Repr

/-- One advisory lock: holding socket, user id, acquisition time. -/
structure Lock where
  socketId : String
  userId : String
  timestamp : Int
deriving DecidableEq, Repr

/-- One presence entry: user id, display name, cursor color, last
cursor position. -/
structure PEntry where
  userId : String
  userName : String
  color : String
  cursor : Value × Value
deriving DecidableEq, Repr

/-- Server-side state the handlers read and write: the board store
(in-memory authority backed by the document store), the global lock map
(boardId -> objectId -> Lock) and the global presence map
(boardId -> socketId -> PEntry). -/
structure SrvState where
  boards : List (String × BoardDoc)
  locks : List (String × List (String × Lock))
  presence : List (String × List (String × PEntry))
deriving DecidableEq, Repr

/-- Per-connection state: socket id, authenticated user id
(socket.userData?.userId) and the currently joined board
(socket.currentBoardId). -/
structure Conn where
  id : String
  userId : Option String
  currentBoardId : Option String
deriving DecidableEq, Repr

/-- socket.userData?.userId || socket.id. -/
def userIdOr (c : Conn) : String :=
  c.userId.getD c.id

/-- socket.userData?.userId || null, as a shape field value. -/
def createdByVal (c : Conn) : Value :=
  match c.userId with
  | some u => .str u
  | none => .null

/-- Lock timeout in milliseconds (30 seconds). -/
def LOCK_TIMEOUT : Int := 30000

/-- cleanExpiredLocks(boardId): delete every lock of the board older
than LOCK_TIMEOUT, then drop the board entry if no locks remain. -/
def cleanExpiredLocks (locks : List (String × List (String × Lock)))
    (boardId : String) (now : Int) : List (String × List (String × Lock)) :=
  match lookupA locks boardId with
  | none => locks
  | some tbl =>
      let tbl' := tbl.filter (fun p => ¬ (now - p.2.timestamp > LOCK_TIMEOUT))
      if tbl'.isEmpty then eraseA locks boardId else setA locks boardId tbl'

/-- createUndoOp(op, board): the compensating op for undo.  Undoing a
create deletes the created shape; undoing a delete recreates the
deleted snapshot; undoing an update builds a reverse changes object by
reading, for each key of the recorded changes, the shape's current
field value (none if the shape no longer exists). -/
def createUndoOp (op : Op) (board : BoardDoc) : Option OpKind :=
  match op.kind with
  | .create payload =>
      some (.delete (getField payload "id") payload)
  | .delete _ deletedShape =>
      some (.create deletedShape)
  | .update shapeId changes _ =>
      match board.shapes.find? (fun s => getField s "id" == shapeId) with
      | none => none
      | some shape =>
          some (.update shapeId
            (changes.map (fun p => (p.1, getField shape p.1))) none)

/-- applyOpToBoard(board, op): create pushes the payload unless a shape
with its id already exists; delete filters out every shape with the
recorded shapeId; update Object.assigns the changes onto the matching
shape if it exists. -/
def applyOpToBoard (board : BoardDoc) (op : Op) : BoardDoc :=
  match op.kind with
  | .create payload =>
      if (board.shapes.find?
          (fun s => getField s "id" == getField payload "id")).isSome
      then board
      else { board with shapes := board.shapes ++ [payload] }
  | .delete shapeId _ =>
      { board with shapes :=
          board.shapes.filter (fun s => ¬ (getField s "id" == shapeId)) }
  | .update shapeId changes _ =>
      match findWithIdx board.shapes (fun s => getField s "id" == shapeId) with
      | some q =>
          { board with shapes := board.shapes.set q.1 (objAssign q.2 changes) }
      | none => board

/-- The inbound client requests the handlers register for (join-board,
with its external authentication and access-check collaborators, is out
of scope of the claims below; redo is a stub). -/
inductive Request where
  | drawStart (data : Obj)
  | drawDelta (data : Obj)
  | drawEnd (id : String) (points color strokeWidth layerV : Value)
  | createShape (id : String) (ty x y width height color strokeWidth textV layerV : Value)
  | updateShape (shapeId : String) (changes : Obj)
  | deleteShape (shapeId : String)
  | undo
  | lockObject (objectId : String)
  | unlockObject (objectId : String)
  | cursorMove (x y : Value)
  | leaveBoard
  | disconnect
deriving DecidableEq, Repr

/-- The outbound events a handler can emit, in emission order. -/
inductive Event where
  | error (msg : String)
  | drawStartEv (data : Obj) (userId : String)
  | drawDeltaEv (data : Obj) (userId : String)
  | drawEndEv (id : String) (points color strokeWidth layerV : Value) (userId : String)
  | shapeCreated (shape : Obj)
  | shapeUpdated (shapeId : String) (changes : Obj)
  | shapeDeleted (shapeId : String)
  | undoApplied (undoOp : Op) (shapes : List Obj)
  | lockFailed (objectId : String) (lockedBy : String)
  | lockUpdate (objectId : String) (locked : Bool) (userId : Option String)
  | cursorUpdate (userId : String) (x y : Value)
  | userLeft (socketId : String)
deriving DecidableEq, Repr

/-- Result of processing one request: updated connection, updated
server state, emitted events in order. -/
abbrev HandlerOut := Conn × SrvState × List Event

/-- draw-start handler: rebroadcast only, gated on being joined. -/
def handleDrawStart (c : Conn) (st : SrvState) (data : Obj) : HandlerOut :=
  match c.currentBoardId with
  | none => (c, st, [])
  | some _ => (c, st, [.drawStartEv data (userIdOr c)])

/-- draw-delta handler: rebroadcast only, gated on being joined. -/
def handleDrawDelta (c : Conn) (st : SrvState) (data : Obj) : HandlerOut :=
  match c.currentBoardId with
  | none => (c, st, [])
  | some _ => (c, st, [.drawDeltaEv data (userIdOr c)])

/-- The path shape object built by the draw-end handler. -/
def mkPathShape (c : Conn) (id : String) (points color strokeWidth layerV : Value)
    (now : Int) : Obj :=
  [("id", .str id), ("type", .str "path"), ("points", points),
   ("color", color), ("strokeWidth", strokeWidth),
   ("layer", jsOr layerV (.str "default")),
   ("createdBy", createdByVal c), ("createdAt", .num now)]

/-- The shape object built by the create-shape handler. -/
def mkCreateShape (c : Conn) (id : String)
    (ty x y width height color strokeWidth textV layerV : Value)
    (now : Int) : Obj :=
  [("id", .str id), ("type", ty), ("x", x), ("y", y),
   ("width", width), ("height", height), ("color", color),
   ("strokeWidth", strokeWidth), ("text", jsOr textV .null),
   ("layer", jsOr layerV (.str "default")),
   ("createdBy", createdByVal c), ("createdAt", .num now)]

/-- draw-end handler: build the path shape, push it onto the board's
shapes, append a create op, broadcast draw-end. -/
def handleDrawEnd (c : Conn) (st : SrvState) (id : String)
    (points color strokeWidth layerV : Value) (now : Int) : HandlerOut :=
  match c.currentBoardId with
  | none => (c, st, [])
  | some bid =>
      match lookupA st.boards bid with
      | none => (c, st, [])
      | some board =>
          let shape := mkPathShape c id points color strokeWidth layerV now
          let op : Op := ⟨.create shape, c.userId, now⟩
          let board' : BoardDoc :=
            { shapes := board.shapes ++ [shape], ops := board.ops ++ [op] }
          (c, { st with boards := setA st.boards bid board' },
           [.drawEndEv id points color strokeWidth layerV (userIdOr c)])

/-- create-shape handler: build the shape object, push it onto the
board's shapes, append a create op, broadcast shape-created. -/
def handleCreateShape (c : Conn) (st : SrvState) (id : String)
    (ty x y width height color strokeWidth textV layerV : Value)
    (now : Int) : HandlerOut :=
  match c.currentBoardId with
  | none => (c, st, [])
  | some bid =>
      match lookupA st.boards bid with
      | none => (c, st, [])
      | some board =>
          let shape := mkCreateShape c id ty x y width height color strokeWidth textV layerV now
          let op : Op := ⟨.create shape, c.userId, now⟩
          let board' : BoardDoc :=
            { shapes := board.shapes ++ [shape], ops := board.ops ++ [op] }
          (c, { st with boards := setA st.boards bid board' },
           [.shapeCreated shape])

/-- The gating test lock && lock.socketId !== socket.id used by the
update-shape and delete-shape handlers. -/
def lockedByOther (lockOpt : Option Lock) (sockId : String) : Bool :=
  match lockOpt with
  | some lk => lk.socketId != sockId
  | none => false

/-- update-shape handler: NotFound if no shape matches, then lazy lock
expiry, Conflict if a live lock is held by another socket, otherwise
snapshot oldValues for the changed keys, Object.assign the changes,
append the update op and broadcast shape-updated. -/
def handleUpdateShape (c : Conn) (st : SrvState) (shapeId : String)
    (changes : Obj) (now : Int) : HandlerOut :=
  match c.currentBoardId with
  | none => (c, st, [])
  | some bid =>
      match lookupA st.boards bid with
      | none => (c, st, [])
      | some board =>
          match findWithIdx board.shapes
              (fun s => getField s "id" == Value.str shapeId) with
          | none => (c, st, [.error "Shape not found"])
          | some q =>
              let locks1 := cleanExpiredLocks st.locks bid now
              let st1 := { st with locks := locks1 }
              let lockOpt := (lookupA locks1 bid).bind (fun tbl => lookupA tbl shapeId)
              if lockedByOther lockOpt c.id then
                (c, st1, [.error "Object is locked by another user"])
              else
                let oldValues : Obj := changes.map (fun p => (p.1, getField q.2 p.1))
                let op : Op :=
                  ⟨.update (.str shapeId) changes (some oldValues), c.userId, now⟩
                let board' : BoardDoc :=
                  { shapes := board.shapes.set q.1 (objAssign q.2 changes),
                    ops := board.ops ++ [op] }
                (c, { st1 with boards := setA st1.boards bid board' },
                 [.shapeUpdated shapeId changes])

/-- delete-shape handler: NotFound if no shape matches, then lazy lock
expiry, Conflict if a live lock is held by another socket, otherwise
filter the shape out, append the delete op with the snapshot and
broadcast shape-deleted. -/
def handleDeleteShape (c : Conn) (st : SrvState) (shapeId : String)
    (now : Int) : HandlerOut :=
  match c.currentBoardId with
  | none => (c, st, [])
  | some bid =>
      match lookupA st.boards bid with
      | none => (c, st, [])
      | some board =>
          match board.shapes.find?
              (fun s => getField s "id" == Value.str shapeId) with
          | none => (c, st, [.error "Shape not found"])
          | some shape =>
              let locks1 := cleanExpiredLocks st.locks bid now
              let st1 := { st with locks := locks1 }
              let lockOpt := (lookupA locks1 bid).bind (fun tbl => lookupA tbl shapeId)
              if lockedByOther lockOpt c.id then
                (c, st1, [.error "Object is locked by another user"])
              else
                let op : Op := ⟨.delete (.str shapeId) shape, c.userId, now⟩
                let board' : BoardDoc :=
                  { shapes := board.shapes.filter
                      (fun s => ¬ (getField s "id" == Value.str shapeId)),
                    ops := board.ops ++ [op] }
                (c, { st1 with boards := setA st1.boards bid board' },
                 [.shapeDeleted shapeId])

/-- undo handler: Empty if the board is missing or its log is empty,
Irreversible if no compensating op exists, otherwise apply the
compensating op to the board, append it to the log and broadcast
undo-applied with the full shape set. -/
def handleUndo (c : Conn) (st : SrvState) (now : Int) : HandlerOut :=
  match c.currentBoardId with
  | none => (c, st, [])
  | some bid =>
      match lookupA st.boards bid with
      | none => (c, st, [.error "Nothing to undo"])
      | some board =>
          match board.ops.getLast? with
          | none => (c, st, [.error "Nothing to undo"])
          | some lastOp =>
              match createUndoOp lastOp board with
              | none => (c, st, [.error "Cannot undo this operation"])
              | some k =>
                  let undoOp : Op := ⟨k, c.userId, now⟩
                  let board1 := applyOpToBoard board undoOp
                  let board2 : BoardDoc :=
                    { board1 with ops := board1.ops ++ [undoOp] }
                  (c, { st with boards := setA st.boards bid board2 },
                   [.undoApplied undoOp board2.shapes])

/-- lock-object handler: lazy lock expiry, initialize the board's lock
table, lock-failed if a (surviving) lock is held by another socket,
otherwise (re)acquire with a fresh timestamp and broadcast
lock-update locked:true. -/
def handleLockObject (c : Conn) (st : SrvState) (objectId : String)
    (now : Int) : HandlerOut :=
  match c.currentBoardId with
  | none => (c, st, [])
  | some bid =>
      let locks1 := cleanExpiredLocks st.locks bid now
      let locks2 :=
        if (lookupA locks1 bid).isNone then setA locks1 bid [] else locks1
      let tbl := (lookupA locks2 bid).getD []
      match lookupA tbl objectId with
      | some existingLock =>
          if existingLock.socketId ≠ c.id then
            (c, { st with locks := locks2 },
             [.lockFailed objectId existingLock.userId])
          else
            let tbl' := setA tbl objectId ⟨c.id, userIdOr c, now⟩
            (c, { st with locks := setA locks2 bid tbl' },
             [.lockUpdate objectId true (some (userIdOr c))])
      | none =>
          let tbl' := setA tbl objectId ⟨c.id, userIdOr c, now⟩
          (c, { st with locks := setA locks2 bid tbl' },
           [.lockUpdate objectId true (some (userIdOr c))])

/-- unlock-object handler: silently ignore if not locked or locked by
another socket, otherwise delete the lock and broadcast lock-update
locked:false. -/
def handleUnlockObject (c : Conn) (st : SrvState) (objectId : String) : HandlerOut :=
  match c.currentBoardId with
  | none => (c, st, [])
  | some bid =>
      match lookupA st.locks bid with
      | none => (c, st, [])
      | some tbl =>
          match lookupA tbl objectId with
          | none => (c, st, [])
          | some lk =>
              if lk.socketId ≠ c.id then (c, st, [])
              else
                (c, { st with locks := setA st.locks bid (eraseA tbl objectId) },
                 [.lockUpdate objectId false none])

/-- cursor-move handler: update the connection's presence entry cursor
and broadcast cursor-update, provided an entry exists. -/
def handleCursorMove (c : Conn) (st : SrvState) (x y : Value) : HandlerOut :=
  match c.currentBoardId with
  | none => (c, st, [])
  | some bid =>
      match lookupA st.presence bid with
      | none => (c, st, [])
      | some tbl =>
          match lookupA tbl c.id with
          | none => (c, st, [])
          | some entry =>
              let entry' := { entry with cursor := (x, y) }
              (c, { st with presence := setA st.presence bid (setA tbl c.id entry') },
               [.cursorUpdate entry.userId x y])

/-- leave-board handler: remove the presence entry and emit user-left
(when a presence table exists for the board), then clear
currentBoardId.  No lock is touched. -/
def handleLeaveBoard (c : Conn) (st : SrvState) : HandlerOut :=
  match c.currentBoardId with
  | none => (c, st, [])
  | some bid =>
      match lookupA st.presence bid with
      | none => ({ c with currentBoardId := none }, st, [])
      | some tbl =>
          ({ c with currentBoardId := none },
           { st with presence := setA st.presence bid (eraseA tbl c.id) },
           [.userLeft c.id])

/-- disconnect handler: remove the presence entry and emit user-left
(when a presence table exists), then delete every lock of the board
held by this socket, emitting lock-update locked:false for each. -/
def handleDisconnect (c : Conn) (st : SrvState) : HandlerOut :=
  match c.currentBoardId with
  | none => (c, st, [])
  | some bid =>
      let step1 :=
        match lookupA st.presence bid with
        | none => (st, ([] : List Event))
        | some tbl =>
            ({ st with presence := setA st.presence bid (eraseA tbl c.id) },
             [.userLeft c.id])
      let st1 := step1.1
      match lookupA st1.locks bid with
      | none => (c, st1, step1.2)
      | some tbl =>
          let released := tbl.filter (fun p => p.2.socketId == c.id)
          let tbl' := tbl.filter (fun p => ¬ (p.2.socketId == c.id))
          (c, { st1 with locks := setA st1.locks bid tbl' },
           step1.2 ++ released.map (fun p => .lockUpdate p.1 false none))

/-- Dispatch one inbound request to its handler. -/
def handleRequest (c : Conn) (st : SrvState) (r : Request) (now : Int) : HandlerOut :=
  match r with
  | .drawStart d => handleDrawStart c st d
  | .drawDelta d => handleDrawDelta c st d
  | .drawEnd id points color strokeWidth layerV =>
      handleDrawEnd c st id points color strokeWidth layerV now
  | .createShape id ty x y width height color strokeWidth textV layerV =>
      handleCreateShape c st id ty x y width height color strokeWidth textV layerV now
  | .updateShape shapeId changes => handleUpdateShape c st shapeId changes now
  | .deleteShape shapeId => handleDeleteShape c st shapeId now
  | .undo => handleUndo c st now
  | .lockObject objectId => handleLockObject c st objectId now
  | .unlockObject objectId => handleUnlockObject c st objectId
  | .cursorMove x y => handleCursorMove c st x y
  | .leaveBoard => handleLeaveBoard c st
  | .disconnect => handleDisconnect c st

/-- Process a timed request sequence, threading connection and server
state. -/
def runReqs (c : Conn) (st : SrvState) : List (Request × Int) → Conn × SrvState
  | [] => (c, st)
  | (r, t) :: rest =>
      let out := handleRequest c st r t
      runReqs out.1 out.2.1 rest

/-- Replay an op log in order from the empty board. -/
def replayBoard (ops : List Op) : BoardDoc :=
  ops.foldl applyOpToBoard ⟨[], []⟩

/-- The shape set obtained by replaying an op log from empty. -/
def replayShapes (ops : List Op) : List Obj :=
  (replayBoard ops).shapes

/-- Log faithfulness invariant: every board's materialized shapes equal
the replay of its op log from empty. -/
def LogFaithful (st : SrvState) : Prop :=
  ∀ p ∈ st.boards, p.2.shapes = replayShapes p.2.ops

instance (st : SrvState) : Decidable (LogFaithful st) := by
  unfold LogFaithful; infer_instance

/-- A create request (create-shape or draw-end) is fresh when no shape
with its id is already in the target board's current set. -/
def createFresh (c : Conn) (st : SrvState) (r : Request) : Bool :=
  match r with
  | .createShape id _ _ _ _ _ _ _ _ _ =>
      match c.currentBoardId with
      | some bid =>
          match lookupA st.boards bid with
          | some board =>
              (board.shapes.find? (fun s => getField s "id" == Value.str id)).isNone
          | none => true
      | none => true
  | .drawEnd id _ _ _ _ =>
      match c.currentBoardId with
      | some bid =>
          match lookupA st.boards bid with
          | some board =>
              (board.shapes.find? (fun s => getField s "id" == Value.str id)).isNone
          | none => true
      | none => true
  | _ => true

/-- A run is duplicate-create-free when every create request in it is
fresh at the moment it is processed. -/
def dupFreeRun (c : Conn) (st : SrvState) : List (Request × Int) → Bool
  | [] => true
  | (r, t) :: rest =>
      createFresh c st r &&
        (let out := handleRequest c st r t
         dupFreeRun out.1 out.2.1 rest)

/-- Keys of an association list are pairwise distinct (true of every
JavaScript object). -/
def keysNodup {β : Type} (l : List (String × β)) : Prop :=
  (l.map Prod.fst).Nodup

instance {β : Type} (l : List (String × β)) : Decidable (keysNodup l) := by
  unfold keysNodup; infer_instance

theorem lookupA_setA_self {β : Type} (l : List (String × β)) (k : String) (v : β) :
    lookupA (setA l k v) k = some v := by
  induction l with
  | nil => simp [setA, lookupA]
  | cons q rest ih =>
    obtain ⟨k', v'⟩ := q
    by_cases h : k' = k
    · subst h; simp [setA, lookupA]
    · simp [setA, h, lookupA, ih]

theorem lookupA_setA_ne {β : Type} (l : List (String × β)) {k k' : String} (v : β)
    (h : k ≠ k') : lookupA (setA l k v) k' = lookupA l k' := by
  induction l with
  | nil => simp [setA, lookupA, h]
  | cons q rest ih =>
    obtain ⟨k₀, v₀⟩ := q
    by_cases h0 : k₀ = k
    · subst h0; simp [setA, lookupA, h]
    · simp [setA, h0, lookupA, ih]

theorem mem_setA {β : Type} {l : List (String × β)} {k : String} {v : β}
    {p : String × β} (h : p ∈ setA l k v) : p = (k, v) ∨ p ∈ l := by
  induction l with
  | nil => simpa [setA] using h
  | cons q rest ih =>
    obtain ⟨k', v'⟩ := q
    by_cases hk : k' = k
    · subst hk
      simp [setA] at h
      simp only [List.mem_cons]
      tauto
    · simp only [setA, if_neg hk] at h
      simp only [List.mem_cons] at h ⊢
      rcases h with h | h
      · tauto
      · rcases ih h with h' | h'
        · exact Or.inl h'
        · tauto

theorem lookupA_mem {β : Type} :
    ∀ {l : List (String × β)} {k : String} {v : β},
      lookupA l k = some v → (k, v) ∈ l := by
  intro l
  induction l with
  | nil => intro k v h; simp [lookupA] at h
  | cons q rest ih =>
    intro k v h
    obtain ⟨k', v'⟩ := q
    by_cases hk : k' = k
    · subst hk
      simp [lookupA] at h
      simp [h]
    · simp [lookupA, hk] at h
      exact List.mem_cons_of_mem _ (ih h)

theorem lookupA_eq_none_iff {β : Type} {l : List (String × β)} {k : String} :
    lookupA l k = none ↔ ∀ q ∈ l, q.1 ≠ k := by
  induction l with
  | nil => simp [lookupA]
  | cons q rest ih =>
    obtain ⟨k', v'⟩ := q
    by_cases hk : k' = k
    · subst hk; simp [lookupA]
    · simp [lookupA, hk, ih]

theorem lookupA_filter_keep {β : Type} {l : List (String × β)} {k : String}
    {v : β} {p : String × β → Bool} (h : lookupA l k = some v)
    (hp : p (k, v) = true) : lookupA (l.filter p) k = some v := by
  induction l with
  | nil => simp [lookupA] at h
  | cons q rest ih =>
    obtain ⟨k', v'⟩ := q
    by_cases hk : k' = k
    · subst hk
      simp [lookupA] at h
      subst h
      simp [List.filter_cons, hp, lookupA]
    · simp only [lookupA, if_neg hk] at h
      by_cases hq : p (k', v')
      · simp [List.filter_cons, hq, lookupA, hk, ih h]
      · simp only [List.filter_cons, hq]
        simpa using ih h

theorem lookupA_filter_drop {β : Type} {l : List (String × β)} {k : String}
    {v : β} {p : String × β → Bool} (hnd : keysNodup l)
    (h : lookupA l k = some v) (hp : p (k, v) = false) :
    lookupA (l.filter p) k = none := by
  induction l with
  | nil => simp [lookupA] at h
  | cons q rest ih =>
    obtain ⟨k', v'⟩ := q
    simp only [keysNodup, List.map_cons, List.nodup_cons] at hnd
    by_cases hk : k' = k
    · subst hk
      simp [lookupA] at h
      subst h
      simp only [List.filter_cons, hp, Bool.false_eq_true, if_false]
      rw [lookupA_eq_none_iff]
      intro q hq hq1
      exact hnd.1 (by rw [← hq1]
                      exact List.mem_map_of_mem Prod.fst (List.mem_of_mem_filter hq))
    · simp only [lookupA, if_neg hk] at h
      by_cases hq : p (k', v')
      · simp [List.filter_cons, hq, lookupA, hk, ih hnd.2 h]
      · simp only [List.filter_cons, hq]
        simpa using ih hnd.2 h

theorem getField_setA_self (o : Obj) (k : String) (v : Value) :
    getField (setA o k v) k = v := by
  simp [getField, lookupA_setA_self]

theorem getField_setA_ne (o : Obj) {k k' : String} (v : Value) (h : k ≠ k') :
    getField (setA o k v) k' = getField o k' := by
  simp [getField, lookupA_setA_ne o v h]

theorem objAssign_cons (o : Obj) (q : String × Value) (rest : Obj) :
    objAssign o (q :: rest) = objAssign (setA o q.1 q.2) rest := rfl

theorem getField_objAssign_of_not_key (o : Obj) {cs : Obj} {k : String}
    (h : ∀ q ∈ cs, q.1 ≠ k) : getField (objAssign o cs) k = getField o k := by
  induction cs generalizing o with
  | nil => rfl
  | cons q rest ih =>
    rw [objAssign_cons,
      ih (setA o q.1 q.2) (fun q hq => h q (List.mem_cons_of_mem _ hq))]
    exact getField_setA_ne _ _ (h q (List.mem_cons_self _ _))

theorem getField_objAssign_of_lookup (o : Obj) {cs : Obj} {k : String} {v : Value}
    (hnd : keysNodup cs) (h : lookupA cs k = some v) :
    getField (objAssign o cs) k = v := by
  induction cs generalizing o with
  | nil => simp [lookupA] at h
  | cons q rest ih =>
    obtain ⟨k', v'⟩ := q
    simp only [keysNodup, List.map_cons, List.nodup_cons] at hnd
    by_cases hk : k' = k
    · subst hk
      simp [lookupA] at h
      subst h
      rw [objAssign_cons]
      rw [getField_objAssign_of_not_key _
        (fun q hq hq1 => hnd.1 (by rw [← hq1]; exact List.mem_map_of_mem Prod.fst hq))]
      exact getField_setA_self _ _ _
    · simp only [lookupA, if_neg hk] at h
      rw [objAssign_cons]
      exact ih (setA o k' v') hnd.2 h

theorem findWithIdx_eq_none {α : Type} {l : List α} {p : α → Bool}
    (h : ∀ a ∈ l, p a = false) : findWithIdx l p = none := by
  induction l with
  | nil => rfl
  | cons a rest ih =>
    have ha := h a (List.mem_cons_self _ _)
    simp [findWithIdx, ha, ih (fun a h' => h a (List.mem_cons_of_mem _ h'))]

theorem replayBoard_append (ops : List Op) (op : Op) :
    replayBoard (ops ++ [op]) = applyOpToBoard (replayBoard ops) op := by
  simp [replayBoard, List.foldl_append]

theorem applyOpToBoard_shapes_congr (b1 b2 : BoardDoc) (op : Op)
    (h : b1.shapes = b2.shapes) :
    (applyOpToBoard b1 op).shapes = (applyOpToBoard b2 op).shapes := by
  obtain ⟨kind, cb, ca⟩ := op
  cases kind with
  | create payload =>
      simp only [applyOpToBoard, h]
      split <;> simp [h]
  | update sid changes old =>
      simp only [applyOpToBoard, h]
      split <;> simp [h]
  | delete sid snap =>
      simp [applyOpToBoard, h]

theorem logFaithful_setA {st : SrvState} {bid : String} {b' : BoardDoc}
    (hInv : LogFaithful st) (hb : b'.shapes = replayShapes b'.ops) :
    LogFaithful { st with boards := setA st.boards bid b' } := by
  intro p hp
  rcases mem_setA hp with h | hmem
  · rw [h]; exact hb
  · exact hInv p hmem

theorem replay_create_step {board : BoardDoc} {shape : Obj} {idv : Value}
    {cb : Option String} {ca : Int}
    (hrep : board.shapes = replayShapes board.ops)
    (hfresh : (board.shapes.find?
      (fun s => getField s "id" == idv)).isNone = true)
    (hid : getField shape "id" = idv) :
    board.shapes ++ [shape] =
      replayShapes (board.ops ++ [Op.mk (.create shape) cb ca]) := by
  have hsh : (replayBoard board.ops).shapes = board.shapes := hrep.symm
  simp only [replayShapes, replayBoard_append, applyOpToBoard, hid, hsh]
  rw [Option.isNone_iff_eq_none] at hfresh
  simp [hfresh]

theorem replay_update_step {board : BoardDoc} {sid : Value} {changes : Obj}
    {old : Option Obj} {i : Nat} {shape : Obj} {cb : Option String} {ca : Int}
    (hrep : board.shapes = replayShapes board.ops)
    (hfind : findWithIdx board.shapes (fun s => getField s "id" == sid) =
      some (i, shape)) :
    board.shapes.set i (objAssign shape changes) =
      replayShapes (board.ops ++ [Op.mk (.update sid changes old) cb ca]) := by
  have hsh : (replayBoard board.ops).shapes = board.shapes := hrep.symm
  simp [replayShapes, replayBoard_append, applyOpToBoard, hsh, hfind]

theorem replay_delete_step {board : BoardDoc} {sid : Value} {snap : Obj}
    {cb : Option String} {ca : Int}
    (hrep : board.shapes = replayShapes board.ops) :
    board.shapes.filter (fun s => ¬ (getField s "id" == sid)) =
      replayShapes (board.ops ++ [Op.mk (.delete sid snap) cb ca]) := by
  have hsh : (replayBoard board.ops).shapes = board.shapes := hrep.symm
  simp [replayShapes, replayBoard_append, applyOpToBoard, hsh]

theorem replay_undo_step {board : BoardDoc} {undoOp : Op}
    (hrep : board.shapes = replayShapes board.ops) :
    (applyOpToBoard board undoOp).shapes =
      replayShapes (board.ops ++ [undoOp]) := by
  simp only [replayShapes, replayBoard_append]
  exact applyOpToBoard_shapes_congr _ _ _ (by simpa [replayShapes] using hrep)

theorem applyOpToBoard_ops (b : BoardDoc) (op : Op) :
    (applyOpToBoard b op).ops = b.ops := by
  obtain ⟨kind, cb, ca⟩ := op
  cases kind with
  | create payload => simp only [applyOpToBoard]; split <;> rfl
  | update sid changes old => simp only [applyOpToBoard]; split <;> rfl
  | delete sid snap => rfl

theorem logFaithful_of_boards_eq {st st' : SrvState}
    (h : st'.boards = st.boards) (hInv : LogFaithful st) : LogFaithful st' := by
  intro p hp
  exact hInv p (h ▸ hp)

theorem boards_handleDrawStart (c : Conn) (st : SrvState) (d : Obj) :
    (handleDrawStart c st d).2.1.boards = st.boards := by
  obtain ⟨cid, cu, cb⟩ := c
  cases cb <;> rfl

theorem boards_handleDrawDelta (c : Conn) (st : SrvState) (d : Obj) :
    (handleDrawDelta c st d).2.1.boards = st.boards := by
  obtain ⟨cid, cu, cb⟩ := c
  cases cb <;> rfl

theorem boards_handleLockObject (c : Conn) (st : SrvState) (o : String) (now : Int) :
    (handleLockObject c st o now).2.1.boards = st.boards := by
  obtain ⟨cid, cu, cb⟩ := c
  cases cb with
  | none => rfl
  | some bid =>
      simp only [handleLockObject]
      split
      · split <;> rfl
      · rfl

theorem boards_handleUnlockObject (c : Conn) (st : SrvState) (o : String) :
    (handleUnlockObject c st o).2.1.boards = st.boards := by
  obtain ⟨cid, cu, cb⟩ := c
  cases cb with
  | none => rfl
  | some bid =>
      simp only [handleUnlockObject]
      split
      · rfl
      · split
        · rfl
        · split <;> rfl

theorem boards_handleCursorMove (c : Conn) (st : SrvState) (x y : Value) :
    (handleCursorMove c st x y).2.1.boards = st.boards := by
  obtain ⟨cid, cu, cb⟩ := c
  cases cb with
  | none => rfl
  | some bid =>
      simp only [handleCursorMove]
      split
      · rfl
      · split <;> rfl

theorem boards_handleLeaveBoard (c : Conn) (st : SrvState) :
    (handleLeaveBoard c st).2.1.boards = st.boards := by
  obtain ⟨cid, cu, cb⟩ := c
  cases cb with
  | none => rfl
  | some bid =>
      simp only [handleLeaveBoard]
      split <;> rfl

theorem boards_handleDisconnect (c : Conn) (st : SrvState) :
    (handleDisconnect c st).2.1.boards = st.boards := by
  obtain ⟨cid, cu, cb⟩ := c
  cases cb with
  | none => rfl
  | some bid =>
      simp only [handleDisconnect]
      split
      · split <;> rfl
      · split <;> rfl

theorem logFaithful_handleDrawEnd (c : Conn) (st : SrvState) (id : String)
    (points color strokeWidth layerV : Value) (now : Int)
    (hInv : LogFaithful st)
    (hfresh : createFresh c st (.drawEnd id points color strokeWidth layerV) = true) :
    LogFaithful (handleDrawEnd c st id points color strokeWidth layerV now).2.1 := by
  obtain ⟨cid, cu, cb⟩ := c
  cases cb with
  | none => simpa [handleDrawEnd] using hInv
  | some bid =>
      cases hB : lookupA st.boards bid with
      | none => simpa [handleDrawEnd, hB] using hInv
      | some board =>
          simp only [handleDrawEnd, hB]
          apply logFaithful_setA hInv
          apply replay_create_step (hInv (bid, board) (lookupA_mem hB))
            (by simpa [createFresh, hB] using hfresh)
          simp [getField, lookupA]

theorem logFaithful_handleCreateShape (c : Conn) (st : SrvState) (id : String)
    (ty x y width height color strokeWidth textV layerV : Value) (now : Int)
    (hInv : LogFaithful st)
    (hfresh : createFresh c st
      (.createShape id ty x y width height color strokeWidth textV layerV) = true) :
    LogFaithful (handleCreateShape c st id ty x y width height color
      strokeWidth textV layerV now).2.1 := by
  obtain ⟨cid, cu, cb⟩ := c
  cases cb with
  | none => simpa [handleCreateShape] using hInv
  | some bid =>
      cases hB : lookupA st.boards bid with
      | none => simpa [handleCreateShape, hB] using hInv
      | some board =>
          simp only [handleCreateShape, hB]
          apply logFaithful_setA hInv
          apply replay_create_step (hInv (bid, board) (lookupA_mem hB))
            (by simpa [createFresh, hB] using hfresh)
          simp [getField, lookupA]

theorem logFaithful_handleUpdateShape (c : Conn) (st : SrvState)
    (shapeId : String) (changes : Obj) (now : Int) (hInv : LogFaithful st) :
    LogFaithful (handleUpdateShape c st shapeId changes now).2.1 := by
  obtain ⟨cid, cu, cb⟩ := c
  cases cb with
  | none => simpa [handleUpdateShape] using hInv
  | some bid =>
      cases hB : lookupA st.boards bid with
      | none => simpa [handleUpdateShape, hB] using hInv
      | some board =>
          cases hF : findWithIdx board.shapes
              (fun s => getField s "id" == Value.str shapeId) with
          | none => simpa [handleUpdateShape, hB, hF] using hInv
          | some q =>
              obtain ⟨i, shape⟩ := q
              simp only [handleUpdateShape, hB, hF]
              split
              · exact fun p hp => hInv p hp
              · exact logFaithful_setA hInv
                  (replay_update_step (hInv (bid, board) (lookupA_mem hB)) hF)

theorem logFaithful_handleDeleteShape (c : Conn) (st : SrvState)
    (shapeId : String) (now : Int) (hInv : LogFaithful st) :
    LogFaithful (handleDeleteShape c st shapeId now).2.1 := by
  obtain ⟨cid, cu, cb⟩ := c
  cases cb with
  | none => simpa [handleDeleteShape] using hInv
  | some bid =>
      cases hB : lookupA st.boards bid with
      | none => simpa [handleDeleteShape, hB] using hInv
      | some board =>
          cases hF : board.shapes.find?
              (fun s => getField s "id" == Value.str shapeId) with
          | none => simpa [handleDeleteShape, hB, hF] using hInv
          | some shape =>
              simp only [handleDeleteShape, hB, hF]
              split
              · exact fun p hp => hInv p hp
              · exact logFaithful_setA hInv
                  (replay_delete_step (hInv (bid, board) (lookupA_mem hB)))

theorem logFaithful_handleUndo (c : Conn) (st : SrvState) (now : Int)
    (hInv : LogFaithful st) :
    LogFaithful (handleUndo c st now).2.1 := by
  obtain ⟨cid, cu, cb⟩ := c
  cases cb with
  | none => simpa [handleUndo] using hInv
  | some bid =>
      cases hB : lookupA st.boards bid with
      | none => simpa [handleUndo, hB] using hInv
      | some board =>
          cases hLast : board.ops.getLast? with
          | none => simpa [handleUndo, hB, hLast] using hInv
          | some lastOp =>
              cases hU : createUndoOp lastOp board with
              | none => simpa [handleUndo, hB, hLast, hU] using hInv
              | some k =>
                  simp only [handleUndo, hB, hLast, hU]
                  apply logFaithful_setA hInv
                  have hops := applyOpToBoard_ops board (Op.mk k cu now)
                  simp only [hops]
                  exact replay_undo_step (hInv (bid, board) (lookupA_mem hB))

theorem logFaithful_step (c : Conn) (st : SrvState) (r : Request) (now : Int)
    (hInv : LogFaithful st) (hfresh : createFresh c st r = true) :
    LogFaithful (handleRequest c st r now).2.1 := by
  cases r with
  | drawStart d =>
      exact logFaithful_of_boards_eq (boards_handleDrawStart c st d) hInv
  | drawDelta d =>
      exact logFaithful_of_boards_eq (boards_handleDrawDelta c st d) hInv
  | drawEnd id points color strokeWidth layerV =>
      exact logFaithful_handleDrawEnd c st id points color strokeWidth layerV
        now hInv hfresh
  | createShape id ty x y width height color strokeWidth textV layerV =>
      exact logFaithful_handleCreateShape c st id ty x y width height color
        strokeWidth textV layerV now hInv hfresh
  | updateShape shapeId changes =>
      exact logFaithful_handleUpdateShape c st shapeId changes now hInv
  | deleteShape shapeId =>
      exact logFaithful_handleDeleteShape c st shapeId now hInv
  | undo => exact logFaithful_handleUndo c st now hInv
  | lockObject o =>
      exact logFaithful_of_boards_eq (boards_handleLockObject c st o now) hInv
  | unlockObject o =>
      exact logFaithful_of_boards_eq (boards_handleUnlockObject c st o) hInv
  | cursorMove x y =>
      exact logFaithful_of_boards_eq (boards_handleCursorMove c st x y) hInv
  | leaveBoard =>
      exact logFaithful_of_boards_eq (boards_handleLeaveBoard c st) hInv
  | disconnect =>
      exact logFaithful_of_boards_eq (boards_handleDisconnect c st) hInv

/-- The inbound requests that are gated on being joined to a board
(everything except leave-board and the disconnect event). -/
def gatedRequest : Request → Bool
  | .leaveBoard => false
  | .disconnect => false
  | _ => true

/-- Concrete fixtures used by witnesses and counterexamples: an
authenticated connection joined to board B, a second one, an unjoined
connection, an empty board and a board holding one rect shape. -/
def connA : Conn := ⟨"sockA", some "userA", some "B"⟩

def connB : Conn := ⟨"sockB", some "userB", some "B"⟩

def connNone : Conn := ⟨"sockN", none, none⟩

def shapeS1 : Obj := [("id", .str "s1"), ("type", .str "rect"), ("x", .num 3)]

def stEmptyB : SrvState := ⟨[("B", ⟨[], []⟩)], [], []⟩

def stS1 : SrvState := ⟨[("B", ⟨[shapeS1], []⟩)], [], []⟩

/-- C1 failing run: update shape s1 (x: 3 -> 5), then undo. -/
def c1Reqs : List (Request × Int) :=
  [(.updateShape "s1" [("x", .num 5)], 10), (.undo, 20)]

def c1Final : SrvState := (runReqs connA stS1 c1Reqs).2

def c1Board : BoardDoc := (lookupA c1Final.boards "B").getD ⟨[], []⟩

/-- C1: the spec requires that undoing an update appends a compensating
update whose changes carry the oldValues recorded at update time (x
back to 3 in the failing run).  The code instead reads the shape's
current (post-update) values when building the compensating changes,
so after update (x: 3 to 5) followed by undo the shape still has x = 5
and the appended compensating op carries changes x = 5, even though
oldValues x = 3 was recorded in the log.  This theorem evaluates the
embedded code on that failing run. -/
theorem c1_undo_update_keeps_new_value :
    c1Board.shapes = [[("id", Value.str "s1"), ("type", Value.str "rect"),
      ("x", Value.num 5)]] ∧
    c1Board.ops =
      [⟨.update (.str "s1") [("x", .num 5)] (some [("x", .num 3)]),
        some "userA", 10⟩,
       ⟨.update (.str "s1") [("x", .num 5)] none, some "userA", 20⟩] := by
  decide

/-- C2 amended: for every request sequence in which no create-shape or
draw-end request reuses a shape id already present on its target board,
processing preserves log faithfulness: every board's materialized shape
set equals the replay of its op log in order from empty.  (Starting
from an empty board, the materialized set after the sequence therefore
equals the replay of the log.) -/
theorem c2_log_replay_faithful_amended (rs : List (Request × Int)) (c : Conn)
    (st : SrvState) (hInv : LogFaithful st)
    (hdf : dupFreeRun c st rs = true) :
    LogFaithful (runReqs c st rs).2 := by
  induction rs generalizing c st with
  | nil => simpa [runReqs] using hInv
  | cons rt rest ih =>
      obtain ⟨r, t⟩ := rt
      simp only [dupFreeRun, Bool.and_eq_true] at hdf
      simp only [runReqs]
      exact ih _ _ (logFaithful_step c st r t hInv hdf.1) hdf.2

/-- C2 witness run: create, update, undo, delete on the empty board. -/
def c2wReqs : List (Request × Int) :=
  [(.createShape "a" (.str "rect") (.num 0) (.num 0) (.num 4) (.num 4)
      (.str "#000000") (.num 2) .undef .undef, 1),
   (.updateShape "a" [("x", .num 5)], 2),
   (.undo, 3),
   (.deleteShape "a", 4)]

theorem c2_log_replay_faithful_amended_witness :
    (LogFaithful stEmptyB ∧ dupFreeRun connA stEmptyB c2wReqs = true) ∧
    LogFaithful (runReqs connA stEmptyB c2wReqs).2 :=
  ⟨⟨by decide, by decide⟩,
   c2_log_replay_faithful_amended c2wReqs connA stEmptyB (by decide) (by decide)⟩

/-- C2 counterexample run: two create-shape requests with the same id
"a" but different x coordinates. -/
def c2ceReqs : List (Request × Int) :=
  [(.createShape "a" (.str "rect") (.num 0) (.num 0) (.num 4) (.num 4)
      (.str "#000000") (.num 2) .undef .undef, 1),
   (.createShape "a" (.str "rect") (.num 9) (.num 0) (.num 4) (.num 4)
      (.str "#000000") (.num 2) .undef .undef, 2)]

def c2ceBoard : BoardDoc :=
  (lookupA ((runReqs connA stEmptyB c2ceReqs).2).boards "B").getD ⟨[], []⟩

/-- C2 as stated is false on the code: after two creates reusing id
"a" (processed from the empty board), the materialized shape list holds
both shapes while the replay of the op log holds only the first, so the
materialized set differs from the replayed set — the second created
shape is materialized but not in the replay. -/
theorem c2_counterexample :
    c2ceBoard.shapes ≠ replayShapes c2ceBoard.ops ∧
    mkCreateShape connA "a" (.str "rect") (.num 9) (.num 0) (.num 4) (.num 4)
        (.str "#000000") (.num 2) .undef .undef 2 ∈ c2ceBoard.shapes ∧
    mkCreateShape connA "a" (.str "rect") (.num 9) (.num 0) (.num 4) (.num 4)
        (.str "#000000") (.num 2) .undef .undef 2 ∉ replayShapes c2ceBoard.ops := by
  decide

/-- The state produced by a successful create: the shape pushed onto
the board's shapes and a create op carrying it appended to the log. -/
def createdState (st : SrvState) (bid : String) (board : BoardDoc)
    (shape : Obj) (cu : Option String) (now : Int) : SrvState :=
  let board' : BoardDoc :=
    ⟨board.shapes ++ [shape], board.ops ++ [⟨.create shape, cu, now⟩]⟩
  { st with boards := setA st.boards bid board' }

/-- C3 amended: a create-shape or draw-end request from a joined
connection on an existing board always pushes the built shape onto the
shapes array — there is no duplicate-id check in these handlers, so a
create whose id already exists yields a second entry with that id —
and always appends a create op carrying the full shape. -/
theorem c3_create_always_appends (c : Conn) (st : SrvState) (bid : String)
    (board : BoardDoc) (id : String)
    (ty x y width height color strokeWidth textV layerV points : Value)
    (now : Int) (hc : c.currentBoardId = some bid)
    (hB : lookupA st.boards bid = some board) :
    handleCreateShape c st id ty x y width height color strokeWidth textV
        layerV now =
      (c, createdState st bid board
        (mkCreateShape c id ty x y width height color strokeWidth textV layerV now)
        c.userId now,
       [.shapeCreated (mkCreateShape c id ty x y width height color
          strokeWidth textV layerV now)]) ∧
    handleDrawEnd c st id points color strokeWidth layerV now =
      (c, createdState st bid board
        (mkPathShape c id points color strokeWidth layerV now) c.userId now,
       [.drawEndEv id points color strokeWidth layerV (userIdOr c)]) := by
  obtain ⟨cid, cu, cb⟩ := c
  simp only [Conn.currentBoardId] at hc
  subst hc
  constructor
  · simp [handleCreateShape, hB, createdState]
  · simp [handleDrawEnd, hB, createdState]

theorem c3_create_always_appends_witness :
    (connA.currentBoardId = some "B" ∧
      lookupA stS1.boards "B" = some ⟨[shapeS1], []⟩) ∧
    handleCreateShape connA stS1 "s1" (.str "rect") (.num 9) (.num 0) (.num 4)
        (.num 4) (.str "#000000") (.num 2) .undef .undef 7 =
      (connA, createdState stS1 "B" ⟨[shapeS1], []⟩
        (mkCreateShape connA "s1" (.str "rect") (.num 9) (.num 0) (.num 4)
          (.num 4) (.str "#000000") (.num 2) .undef .undef 7) connA.userId 7,
       [.shapeCreated (mkCreateShape connA "s1" (.str "rect") (.num 9) (.num 0)
          (.num 4) (.num 4) (.str "#000000") (.num 2) .undef .undef 7)]) :=
  ⟨⟨by decide, by decide⟩,
   (c3_create_always_appends connA stS1 "B" ⟨[shapeS1], []⟩ "s1" (.str "rect")
      (.num 9) (.num 0) (.num 4) (.num 4) (.str "#000000") (.num 2)
      .undef .undef (.null) 7 (by decide) (by decide)).1⟩

def c3ceOut : HandlerOut :=
  handleCreateShape connA stS1 "s1" (.str "rect") (.num 9) (.num 0) (.num 4)
    (.num 4) (.str "#000000") (.num 2) .undef .undef 7

def c3ceBoard : BoardDoc := (lookupA c3ceOut.2.1.boards "B").getD ⟨[], []⟩

/-- C3 as stated is false on the code: a create-shape request whose id
"s1" already exists in the current set does not leave the set
unchanged — the handler pushes a second shape with the same id, so
afterwards id "s1" occurs twice in the current set. -/
theorem c3_counterexample :
    c3ceBoard.shapes ≠ [shapeS1] ∧
    c3ceBoard.shapes.countP (fun s => getField s "id" == Value.str "s1") = 2 := by
  decide

/-- C9: every drawing, shape-mutation, undo, lock and cursor request
(draw-start, draw-delta, draw-end, create-shape, update-shape,
delete-shape, undo, lock-object, unlock-object, cursor-move) from a
connection not joined to any board is silently ignored: the connection,
board, lock and presence state are all unchanged and no event at all is
emitted. -/
theorem c9_unjoined_requests_ignored (c : Conn) (st : SrvState) (r : Request)
    (now : Int) (hc : c.currentBoardId = none) (hg : gatedRequest r = true) :
    handleRequest c st r now = (c, st, []) := by
  obtain ⟨cid, cu, cb⟩ := c
  simp only [Conn.currentBoardId] at hc
  subst hc
  cases r <;> rfl

theorem c9_unjoined_requests_ignored_witness :
    (connNone.currentBoardId = none ∧ gatedRequest .undo = true) ∧
    handleRequest connNone stS1 .undo 5 = (connNone, stS1, []) :=
  ⟨⟨by decide, by decide⟩,
   c9_unjoined_requests_ignored connNone stS1 .undo 5 (by decide) (by decide)⟩

theorem lookupA_eraseA_self {β : Type} (l : List (String × β)) (k : String) :
    lookupA (eraseA l k) k = none := by
  rw [lookupA_eq_none_iff]
  intro q hq
  have := List.of_mem_filter hq
  simpa using this

theorem findWithIdx_find? {α : Type} :
    ∀ {l : List α} {p : α → Bool} {i : Nat} {a : α},
      findWithIdx l p = some (i, a) → l.find? p = some a := by
  intro l
  induction l with
  | nil => intro p i a h; simp [findWithIdx] at h
  | cons b rest ih =>
      intro p i a h
      by_cases hb : p b
      · simp only [findWithIdx, if_pos hb] at h
        obtain ⟨h1, h2⟩ := Prod.mk.injEq .. ▸ (Option.some.injEq .. ▸ h)
        simp [List.find?_cons, hb, ← h2]
      · simp only [findWithIdx, if_neg hb] at h
        cases hr : findWithIdx rest p with
        | none => rw [hr] at h; simp at h
        | some q =>
            rw [hr] at h
            have h' : (q.1 + 1, q.2) = (i, a) := Option.some.inj h
            have h2 : q.2 = a := congrArg Prod.snd h'
            rw [List.find?_cons_of_neg _ hb]
            exact h2 ▸ ih hr

/-- After lazy expiry, a live lock is still found at its object id. -/
theorem clean_keep_live {st : SrvState} {bid o : String}
    {ltbl : List (String × Lock)} {lk : Lock} {now : Int}
    (hl : lookupA st.locks bid = some ltbl) (ho : lookupA ltbl o = some lk)
    (hlive : ¬ (now - lk.timestamp > LOCK_TIMEOUT)) :
    lookupA (cleanExpiredLocks st.locks bid now) bid =
      some (ltbl.filter (fun p => ¬ (now - p.2.timestamp > LOCK_TIMEOUT))) ∧
    lookupA (ltbl.filter (fun p => ¬ (now - p.2.timestamp > LOCK_TIMEOUT))) o =
      some lk := by
  have hkeep : lookupA
      (ltbl.filter (fun p => ¬ (now - p.2.timestamp > LOCK_TIMEOUT))) o =
      some lk := lookupA_filter_keep ho (by exact decide_eq_true hlive)
  refine ⟨?_, hkeep⟩
  have hne : (ltbl.filter
      (fun p => ¬ (now - p.2.timestamp > LOCK_TIMEOUT))).isEmpty = false := by
    cases hfe : ltbl.filter (fun p => ¬ (now - p.2.timestamp > LOCK_TIMEOUT)) with
    | nil => rw [hfe] at hkeep; simp [lookupA] at hkeep
    | cons q rest => rfl
  simp only [cleanExpiredLocks, hl]
  split
  · rename_i hcond
    exact absurd hcond (by rw [hne]; simp)
  · exact lookupA_setA_self ..

/-- After lazy expiry, a stale lock is gone (whatever else the board's
lock table holds). -/
theorem clean_drop_stale {st : SrvState} {bid o : String}
    {ltbl : List (String × Lock)} {lk : Lock} {now : Int}
    (hl : lookupA st.locks bid = some ltbl) (ho : lookupA ltbl o = some lk)
    (hnd : keysNodup ltbl) (hstale : now - lk.timestamp > LOCK_TIMEOUT) :
    (lookupA (cleanExpiredLocks st.locks bid now) bid).bind
      (fun t => lookupA t o) = none := by
  have hdrop : lookupA
      (ltbl.filter (fun p => ¬ (now - p.2.timestamp > LOCK_TIMEOUT))) o =
      none := lookupA_filter_drop hnd ho
        (by exact decide_eq_false (not_not_intro hstale))
  simp only [cleanExpiredLocks, hl]
  split
  · rw [lookupA_eraseA_self]
    rfl
  · rw [lookupA_setA_self]
    exact hdrop

/-- Existential form of clean_keep_live, keeping the surviving table
abstract. -/
theorem clean_keep_live_ex {st : SrvState} {bid o : String}
    {ltbl : List (String × Lock)} {lk : Lock} {now : Int}
    (hl : lookupA st.locks bid = some ltbl) (ho : lookupA ltbl o = some lk)
    (hlive : ¬ (now - lk.timestamp > LOCK_TIMEOUT)) :
    ∃ t, lookupA (cleanExpiredLocks st.locks bid now) bid = some t ∧
      lookupA t o = some lk :=
  ⟨_, (clean_keep_live hl ho hlive).1, (clean_keep_live hl ho hlive).2⟩

theorem count_userLeft_in_lock_updates (cid : String)
    (l : List (String × Lock)) :
    (l.map (fun q => Event.lockUpdate q.1 false none)).count
      (Event.userLeft cid) = 0 := by
  rw [List.count_eq_zero]
  intro hmem
  obtain ⟨q, _, heq⟩ := List.mem_map.mp hmem
  cases heq

/-- C4 amended: disconnect performs the full cleanup — afterwards no
lock on the board is held by the disconnecting connection, a
lock-update locked:false is broadcast for exactly the locks it held (in
table order), and its presence entry is removed with user-left
broadcast exactly once.  An explicit leave-board request, by contrast,
removes the presence entry and broadcasts user-left exactly once but
releases no lock: the lock table is left untouched. -/
theorem c4_disconnect_cleans_up_leave_keeps_locks (c : Conn) (st : SrvState)
    (bid : String) (ptbl : List (String × PEntry))
    (ltbl : List (String × Lock)) (hc : c.currentBoardId = some bid)
    (hp : lookupA st.presence bid = some ptbl)
    (hl : lookupA st.locks bid = some ltbl) :
    (∀ q ∈ (lookupA (handleDisconnect c st).2.1.locks bid).getD [],
        q.2.socketId ≠ c.id) ∧
    (handleDisconnect c st).2.2 =
      .userLeft c.id :: (ltbl.filter (fun q => q.2.socketId == c.id)).map
        (fun q => .lockUpdate q.1 false none) ∧
    (handleDisconnect c st).2.2.count (Event.userLeft c.id) = 1 ∧
    lookupA (handleDisconnect c st).2.1.presence bid =
      some (eraseA ptbl c.id) ∧
    handleLeaveBoard c st =
      ({ c with currentBoardId := none },
       { st with presence := setA st.presence bid (eraseA ptbl c.id) },
       [.userLeft c.id]) := by
  obtain ⟨cid, cu, cb⟩ := c
  simp only [Conn.currentBoardId] at hc
  subst hc
  simp only [handleDisconnect, handleLeaveBoard, hp, hl]
  refine ⟨?_, ?_, ?_, ?_, ?_⟩
  · intro q hq
    rw [lookupA_setA_self] at hq
    simp only [Option.getD_some] at hq
    have := List.of_mem_filter hq
    simpa using this
  · simp
  · simp [List.count_cons, count_userLeft_in_lock_updates]
  · exact lookupA_setA_self ..
  · trivial

def c4PEntry : PEntry := ⟨"userA", "A", "#FF6B6B", (.num 0, .num 0)⟩

def c4St : SrvState :=
  ⟨[("B", ⟨[], []⟩)],
   [("B", [("o1", ⟨"sockA", "userA", 100⟩), ("o2", ⟨"sockB", "userB", 100⟩)])],
   [("B", [("sockA", c4PEntry)])]⟩

theorem c4_disconnect_cleans_up_leave_keeps_locks_witness :
    (connA.currentBoardId = some "B" ∧
     lookupA c4St.presence "B" = some [("sockA", c4PEntry)] ∧
     lookupA c4St.locks "B" =
       some [("o1", ⟨"sockA", "userA", 100⟩), ("o2", ⟨"sockB", "userB", 100⟩)]) ∧
    ((∀ q ∈ (lookupA (handleDisconnect connA c4St).2.1.locks "B").getD [],
        q.2.socketId ≠ connA.id) ∧
     (handleDisconnect connA c4St).2.2 =
       .userLeft connA.id ::
         (([("o1", (⟨"sockA", "userA", 100⟩ : Lock)),
            ("o2", ⟨"sockB", "userB", 100⟩)].filter
              (fun q => q.2.socketId == connA.id)).map
            (fun q => .lockUpdate q.1 false none)) ∧
     (handleDisconnect connA c4St).2.2.count (Event.userLeft connA.id) = 1 ∧
     lookupA (handleDisconnect connA c4St).2.1.presence "B" =
       some (eraseA [("sockA", c4PEntry)] connA.id) ∧
     handleLeaveBoard connA c4St =
       ({ connA with currentBoardId := none },
        { c4St with presence := setA c4St.presence "B" (eraseA [("sockA", c4PEntry)] connA.id) },
        [.userLeft connA.id])) :=
  ⟨⟨by decide, by decide, by decide⟩,
   c4_disconnect_cleans_up_leave_keeps_locks connA c4St "B"
     [("sockA", c4PEntry)]
     [("o1", ⟨"sockA", "userA", 100⟩), ("o2", ⟨"sockB", "userB", 100⟩)]
     (by decide) (by decide) (by decide)⟩

/-- C4 as stated is false on the code: a connection joined to board B
and holding the lock on o1 issues an explicit leave-board; the
transition to Unjoined happens (user-left is broadcast) but the lock
whose holder is that connection is still in the lock table and no
lock-update is broadcast. -/
theorem c4_counterexample :
    (handleLeaveBoard connA c4St).1.currentBoardId = none ∧
    lookupA (handleLeaveBoard connA c4St).2.1.locks "B" =
      some [("o1", ⟨"sockA", "userA", 100⟩), ("o2", ⟨"sockB", "userB", 100⟩)] ∧
    (handleLeaveBoard connA c4St).2.2 = [.userLeft "sockA"] := by
  decide

def c5St : SrvState :=
  ⟨[("B", ⟨[], []⟩)], [("B", [("o1", ⟨"sockA", "userA", 0⟩)])], []⟩

/-- C5 as stated is false at the boundary: expiry uses a strict
comparison (now - timestamp > 30000), so a lock acquired at T = 0 and
never released still blocks an access check at exactly now = T + 30000:
a lock-object request from another connection at that instant is denied
and the lock is retained rather than removed. -/
theorem c5_counterexample :
    (handleLockObject connB c5St "o1" 30000).2.2 =
      [.lockFailed "o1" "userA"] ∧
    lookupA ((lookupA (handleLockObject connB c5St "o1" 30000).2.1.locks
      "B").getD []) "o1" = some ⟨"sockA", "userA", 0⟩ := by
  decide

/-- C5 amended: with the strict deadline now - T > 30000 (rather than
now ≥ T + 30000), a stale lock is treated as absent by every access
check: lazy expiry (run at the start of lock-object, update-shape and
delete-shape) removes it, a lock-object request from any other
connection succeeds and installs that connection's lock, and
update-shape / delete-shape on the object are not rejected with a
Conflict error. -/
theorem c5_stale_lock_treated_absent (st : SrvState) (bid o : String)
    (ltbl : List (String × Lock)) (lk : Lock) (now : Int) (c2 : Conn)
    (board : BoardDoc) (i : Nat) (shape : Obj) (changes : Obj)
    (hl : lookupA st.locks bid = some ltbl)
    (ho : lookupA ltbl o = some lk)
    (hnd : keysNodup ltbl)
    (hstale : now - lk.timestamp > LOCK_TIMEOUT)
    (hc2 : c2.currentBoardId = some bid)
    (hB : lookupA st.boards bid = some board)
    (hF : findWithIdx board.shapes
      (fun s => getField s "id" == Value.str o) = some (i, shape)) :
    (lookupA (cleanExpiredLocks st.locks bid now) bid).bind
        (fun t => lookupA t o) = none ∧
    (handleLockObject c2 st o now).2.2 =
      [.lockUpdate o true (some (userIdOr c2))] ∧
    (lookupA (handleLockObject c2 st o now).2.1.locks bid).bind
        (fun t => lookupA t o) = some ⟨c2.id, userIdOr c2, now⟩ ∧
    (handleUpdateShape c2 st o changes now).2.2 = [.shapeUpdated o changes] ∧
    (handleDeleteShape c2 st o now).2.2 = [.shapeDeleted o] := by
  have hnone := clean_drop_stale hl ho hnd hstale
  have hfd := findWithIdx_find? hF
  obtain ⟨cid2, cu2, cb2⟩ := c2
  simp only [Conn.currentBoardId] at hc2
  subst hc2
  refine ⟨hnone, ?_, ?_, ?_, ?_⟩
  · cases hcl : lookupA (cleanExpiredLocks st.locks bid now) bid with
    | none => simp [handleLockObject, hcl, lookupA_setA_self, lookupA]
    | some t =>
        have hto : lookupA t o = none := by simpa [hcl] using hnone
        simp [handleLockObject, hcl, hto, lookupA_setA_self]
  · cases hcl : lookupA (cleanExpiredLocks st.locks bid now) bid with
    | none => simp [handleLockObject, hcl, lookupA_setA_self, lookupA]
    | some t =>
        have hto : lookupA t o = none := by simpa [hcl] using hnone
        simp [handleLockObject, hcl, hto, lookupA_setA_self]
  · simp only [handleUpdateShape, hB, hF]
    rw [hnone]
    simp [lockedByOther]
  · simp only [handleDeleteShape, hB, hfd]
    rw [hnone]
    simp [lockedByOther]

def c5wShape : Obj := [("id", .str "o1"), ("type", .str "rect"), ("x", .num 1)]

def c5wSt : SrvState :=
  ⟨[("B", ⟨[c5wShape], []⟩)],
   [("B", [("o1", ⟨"sockA", "userA", 0⟩)])], []⟩

theorem c5_stale_lock_treated_absent_witness :
    (lookupA c5wSt.locks "B" = some [("o1", ⟨"sockA", "userA", 0⟩)] ∧
     lookupA [("o1", (⟨"sockA", "userA", 0⟩ : Lock))] "o1" =
       some ⟨"sockA", "userA", 0⟩ ∧
     keysNodup [("o1", (⟨"sockA", "userA", 0⟩ : Lock))] ∧
     (30001 : Int) - (0 : Int) > LOCK_TIMEOUT ∧
     connB.currentBoardId = some "B" ∧
     lookupA c5wSt.boards "B" = some ⟨[c5wShape], []⟩ ∧
     findWithIdx [c5wShape] (fun s => getField s "id" == Value.str "o1") =
       some (0, c5wShape)) ∧
    ((lookupA (cleanExpiredLocks c5wSt.locks "B" 30001) "B").bind
        (fun t => lookupA t "o1") = none ∧
     (handleLockObject connB c5wSt "o1" 30001).2.2 =
       [.lockUpdate "o1" true (some (userIdOr connB))] ∧
     (lookupA (handleLockObject connB c5wSt "o1" 30001).2.1.locks "B").bind
        (fun t => lookupA t "o1") = some ⟨connB.id, userIdOr connB, 30001⟩ ∧
     (handleUpdateShape connB c5wSt "o1" [("x", .num 7)] 30001).2.2 =
       [.shapeUpdated "o1" [("x", .num 7)]] ∧
     (handleDeleteShape connB c5wSt "o1" 30001).2.2 =
       [.shapeDeleted "o1"]) :=
  ⟨⟨by decide, by decide, by decide, by decide, by decide, by decide, by decide⟩,
   c5_stale_lock_treated_absent c5wSt "B" "o1"
     [("o1", ⟨"sockA", "userA", 0⟩)] ⟨"sockA", "userA", 0⟩ 30001 connB
     ⟨[c5wShape], []⟩ 0 c5wShape [("x", .num 7)]
     (by decide) (by decide) (by decide) (by decide) (by decide) (by decide)
     (by decide)⟩

def c6St : SrvState :=
  ⟨[("B", ⟨[], []⟩)], [("B", [("o1", ⟨"sockA", "userA", 1000⟩)])], []⟩

/-- C6 as stated is false: connA holds the live lock on o1 acquired at
timestamp 1000; its own lock-object request at now = 5000 succeeds, but
the stored lock's timestamp afterwards is 5000, not the original 1000 —
re-acquisition refreshes the timestamp. -/
theorem c6_counterexample :
    (handleLockObject connA c6St "o1" 5000).2.2 =
      [.lockUpdate "o1" true (some "userA")] ∧
    lookupA ((lookupA (handleLockObject connA c6St "o1" 5000).2.1.locks
        "B").getD []) "o1" = some ⟨"sockA", "userA", 5000⟩ ∧
    (5000 : Int) ≠ (1000 : Int) := by
  decide

/-- C6 amended: a lock-object request from the holder of a live lock on
the same object succeeds (lock-update locked:true, no lock-failed), but
the lock entry is overwritten with a fresh acquisition timestamp equal
to the time of the re-acquiring request — the expiry deadline is
measured from the re-acquisition, not from the original acquisition. -/
theorem c6_reacquire_succeeds_and_refreshes (st : SrvState) (bid o : String)
    (ltbl : List (String × Lock)) (lk : Lock) (now : Int) (c : Conn)
    (hl : lookupA st.locks bid = some ltbl)
    (ho : lookupA ltbl o = some lk)
    (hlive : ¬ (now - lk.timestamp > LOCK_TIMEOUT))
    (hc : c.currentBoardId = some bid)
    (hself : lk.socketId = c.id) :
    (handleLockObject c st o now).2.2 =
      [.lockUpdate o true (some (userIdOr c))] ∧
    (lookupA (handleLockObject c st o now).2.1.locks bid).bind
        (fun t => lookupA t o) = some ⟨c.id, userIdOr c, now⟩ := by
  obtain ⟨tbl2, hclean, hkeep⟩ := clean_keep_live_ex hl ho hlive
  obtain ⟨cid, cu, cb⟩ := c
  simp only [Conn.currentBoardId] at hc
  subst hc
  simp only [Conn.id] at hself
  constructor
  · simp [handleLockObject, hclean, hkeep, hself]
  · simp [handleLockObject, hclean, hkeep, hself, lookupA_setA_self]

def c6wSt : SrvState :=
  ⟨[("B", ⟨[], []⟩)], [("B", [("o1", ⟨"sockA", "userA", 1000⟩)])], []⟩

theorem c6_reacquire_succeeds_and_refreshes_witness :
    (lookupA c6wSt.locks "B" = some [("o1", ⟨"sockA", "userA", 1000⟩)] ∧
     lookupA [("o1", (⟨"sockA", "userA", 1000⟩ : Lock))] "o1" =
       some ⟨"sockA", "userA", 1000⟩ ∧
     ¬ ((5000 : Int) - (1000 : Int) > LOCK_TIMEOUT) ∧
     connA.currentBoardId = some "B" ∧
     (Lock.mk "sockA" "userA" 1000).socketId = connA.id) ∧
    ((handleLockObject connA c6wSt "o1" 5000).2.2 =
       [.lockUpdate "o1" true (some (userIdOr connA))] ∧
     (lookupA (handleLockObject connA c6wSt "o1" 5000).2.1.locks "B").bind
        (fun t => lookupA t "o1") = some ⟨connA.id, userIdOr connA, 5000⟩) :=
  ⟨⟨by decide, by decide, by decide, by decide, by decide⟩,
   c6_reacquire_succeeds_and_refreshes c6wSt "B" "o1"
     [("o1", ⟨"sockA", "userA", 1000⟩)] ⟨"sockA", "userA", 1000⟩ 5000 connA
     (by decide) (by decide) (by decide) (by decide) (by decide)⟩

/-- C7: while a live lock on shape S is held by connection A, an
update-shape or delete-shape targeting S from a different connection B
is rejected with the Conflict error before any mutation — the board
store (shape set and op log) is unchanged, only the lazy lock expiry
ran, and no shape-updated/shape-deleted event is emitted — while the
same requests from A itself succeed and broadcast the mutation event. -/
theorem c7_lock_gates_mutations (st : SrvState) (bid S : String)
    (ltbl : List (String × Lock)) (lk : Lock) (now : Int) (cA cB : Conn)
    (board : BoardDoc) (i : Nat) (shape : Obj) (changes : Obj)
    (hl : lookupA st.locks bid = some ltbl)
    (ho : lookupA ltbl S = some lk)
    (hlive : ¬ (now - lk.timestamp > LOCK_TIMEOUT))
    (hA : lk.socketId = cA.id)
    (hcA : cA.currentBoardId = some bid)
    (hcB : cB.currentBoardId = some bid)
    (hAB : cB.id ≠ cA.id)
    (hB : lookupA st.boards bid = some board)
    (hF : findWithIdx board.shapes
      (fun s => getField s "id" == Value.str S) = some (i, shape)) :
    handleUpdateShape cB st S changes now =
      (cB, { st with locks := cleanExpiredLocks st.locks bid now },
       [.error "Object is locked by another user"]) ∧
    handleDeleteShape cB st S now =
      (cB, { st with locks := cleanExpiredLocks st.locks bid now },
       [.error "Object is locked by another user"]) ∧
    (handleUpdateShape cA st S changes now).2.2 =
      [.shapeUpdated S changes] ∧
    (handleDeleteShape cA st S now).2.2 = [.shapeDeleted S] := by
  obtain ⟨tbl2, hclean, hkeep⟩ := clean_keep_live_ex hl ho hlive
  have hfd := findWithIdx_find? hF
  obtain ⟨cidA, cuA, cbA⟩ := cA
  obtain ⟨cidB, cuB, cbB⟩ := cB
  simp only [Conn.currentBoardId] at hcA hcB
  subst hcA
  subst hcB
  simp only [Conn.id] at hA hAB
  have hBo : lockedByOther (some lk) cidB = true := by
    simp only [lockedByOther, hA, bne_iff_ne]
    exact Ne.symm hAB
  have hAo : lockedByOther (some lk) cidA = false := by
    simp [lockedByOther, hA]
  refine ⟨?_, ?_, ?_, ?_⟩
  · simp only [handleUpdateShape, hB, hF]
    rw [hclean]
    simp [hkeep, hBo]
  · simp only [handleDeleteShape, hB, hfd]
    rw [hclean]
    simp [hkeep, hBo]
  · simp only [handleUpdateShape, hB, hF]
    rw [hclean]
    simp [hkeep, hAo]
  · simp only [handleDeleteShape, hB, hfd]
    rw [hclean]
    simp [hkeep, hAo]

def c7Shape : Obj := [("id", .str "s1"), ("type", .str "rect"), ("x", .num 3)]

def c7St : SrvState :=
  ⟨[("B", ⟨[c7Shape], []⟩)],
   [("B", [("s1", ⟨"sockA", "userA", 100⟩)])], []⟩

theorem c7_lock_gates_mutations_witness :
    (lookupA c7St.locks "B" = some [("s1", ⟨"sockA", "userA", 100⟩)] ∧
     lookupA [("s1", (⟨"sockA", "userA", 100⟩ : Lock))] "s1" =
       some ⟨"sockA", "userA", 100⟩ ∧
     ¬ ((200 : Int) - (100 : Int) > LOCK_TIMEOUT) ∧
     (Lock.mk "sockA" "userA" 100).socketId = connA.id ∧
     connA.currentBoardId = some "B" ∧
     connB.currentBoardId = some "B" ∧
     connB.id ≠ connA.id ∧
     lookupA c7St.boards "B" = some ⟨[c7Shape], []⟩ ∧
     findWithIdx [c7Shape] (fun s => getField s "id" == Value.str "s1") =
       some (0, c7Shape)) ∧
    (handleUpdateShape connB c7St "s1" [("x", .num 9)] 200 =
      (connB, { c7St with locks := cleanExpiredLocks c7St.locks "B" 200 },
       [.error "Object is locked by another user"]) ∧
     handleDeleteShape connB c7St "s1" 200 =
      (connB, { c7St with locks := cleanExpiredLocks c7St.locks "B" 200 },
       [.error "Object is locked by another user"]) ∧
     (handleUpdateShape connA c7St "s1" [("x", .num 9)] 200).2.2 =
       [.shapeUpdated "s1" [("x", .num 9)]] ∧
     (handleDeleteShape connA c7St "s1" 200).2.2 = [.shapeDeleted "s1"]) :=
  ⟨⟨by decide, by decide, by decide, by decide, by decide, by decide,
    by decide, by decide, by decide⟩,
   c7_lock_gates_mutations c7St "B" "s1"
     [("s1", ⟨"sockA", "userA", 100⟩)] ⟨"sockA", "userA", 100⟩ 200 connA connB
     ⟨[c7Shape], []⟩ 0 c7Shape [("x", .num 9)]
     (by decide) (by decide) (by decide) (by decide) (by decide) (by decide)
     (by decide) (by decide) (by decide)⟩

/-- The state produced by a successful undo: the compensated board
written back to the board store. -/
def undoneState (st : SrvState) (bid : String) (b : BoardDoc) : SrvState :=
  { st with boards := setA st.boards bid b }

/-- C8: when the most recent log entry is a create op, undo appends and
applies a delete op carrying the created shape as snapshot, leaving no
shape with that id in the set; when the most recent log entry is a
delete op whose recorded shape id is no longer present, undo appends
and applies a create op carrying the recorded snapshot, restoring the
shape with field values identical to the snapshot taken at deletion;
when the log is empty, undo signals Empty ("Nothing to undo") with no
state change. -/
theorem c8_undo_create_delete_empty (c : Conn) (st : SrvState) (bid : String)
    (board : BoardDoc) (now : Int) (hc : c.currentBoardId = some bid)
    (hB : lookupA st.boards bid = some board) :
    (∀ lastOp payload, board.ops.getLast? = some lastOp →
      lastOp.kind = .create payload →
      handleUndo c st now =
        (c, undoneState st bid
          ⟨board.shapes.filter
             (fun s => ¬ (getField s "id" == getField payload "id")),
           board.ops ++
             [⟨.delete (getField payload "id") payload, c.userId, now⟩]⟩,
         [.undoApplied ⟨.delete (getField payload "id") payload, c.userId, now⟩
           (board.shapes.filter
             (fun s => ¬ (getField s "id" == getField payload "id")))]) ∧
      ∀ s ∈ board.shapes.filter
          (fun s => ¬ (getField s "id" == getField payload "id")),
        getField s "id" ≠ getField payload "id") ∧
    (∀ lastOp sidv snap, board.ops.getLast? = some lastOp →
      lastOp.kind = .delete sidv snap →
      (board.shapes.find?
        (fun s => getField s "id" == getField snap "id")).isNone = true →
      handleUndo c st now =
        (c, undoneState st bid
          ⟨board.shapes ++ [snap],
           board.ops ++ [⟨.create snap, c.userId, now⟩]⟩,
         [.undoApplied ⟨.create snap, c.userId, now⟩
           (board.shapes ++ [snap])])) ∧
    (board.ops = [] →
      handleUndo c st now = (c, st, [.error "Nothing to undo"])) := by
  obtain ⟨cid, cu, cb⟩ := c
  simp only [Conn.currentBoardId] at hc
  subst hc
  refine ⟨?_, ?_, ?_⟩
  · intro lastOp payload hLast hK
    constructor
    · simp [handleUndo, hB, hLast, createUndoOp, hK, applyOpToBoard,
        undoneState]
    · intro s hs
      have := List.of_mem_filter hs
      simpa using this
  · intro lastOp sidv snap hLast hK hno
    rw [Option.isNone_iff_eq_none] at hno
    simp [handleUndo, hB, hLast, createUndoOp, hK, applyOpToBoard, hno,
      undoneState]
  · intro hE
    simp [handleUndo, hB, hE]

def c8OpCreate : Op := ⟨.create shapeS1, some "userA", 1⟩

def c8St1 : SrvState := ⟨[("B", ⟨[shapeS1], [c8OpCreate]⟩)], [], []⟩

def c8OpDelete : Op := ⟨.delete (.str "s1") shapeS1, some "userA", 2⟩

def c8St2 : SrvState := ⟨[("B", ⟨[], [c8OpDelete]⟩)], [], []⟩

theorem c8_undo_create_delete_empty_witness :
    (connA.currentBoardId = some "B" ∧
     lookupA c8St1.boards "B" = some ⟨[shapeS1], [c8OpCreate]⟩ ∧
     lookupA c8St2.boards "B" = some ⟨[], [c8OpDelete]⟩ ∧
     lookupA stEmptyB.boards "B" = some ⟨[], []⟩) ∧
    (handleUndo connA c8St1 50 =
      (connA, undoneState c8St1 "B"
        ⟨[shapeS1].filter
           (fun s => ¬ (getField s "id" == getField shapeS1 "id")),
         [c8OpCreate] ++
           [⟨.delete (getField shapeS1 "id") shapeS1, connA.userId, 50⟩]⟩,
       [.undoApplied
          ⟨.delete (getField shapeS1 "id") shapeS1, connA.userId, 50⟩
          ([shapeS1].filter
            (fun s => ¬ (getField s "id" == getField shapeS1 "id")))]) ∧
     handleUndo connA c8St2 60 =
      (connA, undoneState c8St2 "B"
        ⟨[] ++ [shapeS1], [c8OpDelete] ++ [⟨.create shapeS1, connA.userId, 60⟩]⟩,
       [.undoApplied ⟨.create shapeS1, connA.userId, 60⟩ ([] ++ [shapeS1])]) ∧
     handleUndo connA stEmptyB 70 = (connA, stEmptyB, [.error "Nothing to undo"])) :=
  ⟨⟨by decide, by decide, by decide, by decide⟩,
   ((c8_undo_create_delete_empty connA c8St1 "B" ⟨[shapeS1], [c8OpCreate]⟩ 50
       (by decide) (by decide)).1 c8OpCreate shapeS1 (by decide) (by decide)).1,
   (c8_undo_create_delete_empty connA c8St2 "B" ⟨[], [c8OpDelete]⟩ 60
       (by decide) (by decide)).2.1 c8OpDelete (.str "s1") shapeS1
       (by decide) (by decide) (by decide),
   (c8_undo_create_delete_empty connA stEmptyB "B" ⟨[], []⟩ 70
       (by decide) (by decide)).2.2 rfl⟩

/-- The state produced by a successful update-shape: the mutated shape
written back at its index and the update op (carrying changes and the
oldValues snapshot) appended, after the lazy lock expiry ran. -/
def updatedState (st : SrvState) (bid : String) (board : BoardDoc) (i : Nat)
    (shape : Obj) (sid : String) (changes : Obj) (cu : Option String)
    (now : Int) : SrvState :=
  let board' : BoardDoc :=
    ⟨board.shapes.set i (objAssign shape changes),
     board.ops ++ [⟨.update (.str sid) changes
       (some (changes.map (fun p => (p.1, getField shape p.1)))), cu, now⟩]⟩
  { st with locks := cleanExpiredLocks st.locks bid now,
            boards := setA st.boards bid board' }

/-- C10: update-shape places no restriction on the keys of the changes
map — a changes map containing the key "id" is applied like any other,
so the request succeeds (shape-updated is broadcast) and Object.assign
overwrites the shape's identifier with the supplied value; afterwards,
when no shape with the original id remains, both a subsequent
update-shape and a subsequent delete-shape targeting the original id
signal NotFound ("Shape not found") without changing anything. -/
theorem c10_update_can_overwrite_id (c : Conn) (st : SrvState)
    (bid S : String) (board : BoardDoc) (i : Nat) (shape : Obj)
    (changes changes2 : Obj) (v : Value) (now now2 : Int)
    (hc : c.currentBoardId = some bid)
    (hB : lookupA st.boards bid = some board)
    (hF : findWithIdx board.shapes
      (fun s => getField s "id" == Value.str S) = some (i, shape))
    (hlock : (lookupA (cleanExpiredLocks st.locks bid now) bid).bind
      (fun t => lookupA t S) = none)
    (hid : lookupA changes "id" = some v)
    (hnd : keysNodup changes)
    (hgone : ∀ s ∈ board.shapes.set i (objAssign shape changes),
      getField s "id" ≠ Value.str S) :
    handleUpdateShape c st S changes now =
      (c, updatedState st bid board i shape S changes c.userId now,
       [.shapeUpdated S changes]) ∧
    getField (objAssign shape changes) "id" = v ∧
    handleUpdateShape c (updatedState st bid board i shape S changes
        c.userId now) S changes2 now2 =
      (c, updatedState st bid board i shape S changes c.userId now,
       [.error "Shape not found"]) ∧
    handleDeleteShape c (updatedState st bid board i shape S changes
        c.userId now) S now2 =
      (c, updatedState st bid board i shape S changes c.userId now,
       [.error "Shape not found"]) := by
  obtain ⟨cid, cu, cb⟩ := c
  simp only [Conn.currentBoardId] at hc
  subst hc
  refine ⟨?_, ?_, ?_, ?_⟩
  · simp only [handleUpdateShape, hB, hF]
    rw [hlock]
    simp [lockedByOther, updatedState]
  · exact getField_objAssign_of_lookup shape hnd hid
  · have hB2 : lookupA (updatedState st bid board i shape S changes
        cu now).boards bid =
        some ⟨board.shapes.set i (objAssign shape changes),
          board.ops ++ [⟨.update (.str S) changes
            (some (changes.map (fun p => (p.1, getField shape p.1)))),
            cu, now⟩]⟩ := by
      simp [updatedState, lookupA_setA_self]
    have hF2 : findWithIdx (board.shapes.set i (objAssign shape changes))
        (fun s => getField s "id" == Value.str S) = none := by
      apply findWithIdx_eq_none
      intro a ha
      simpa using hgone a ha
    simp [handleUpdateShape, hB2, hF2]
  · have hB2 : lookupA (updatedState st bid board i shape S changes
        cu now).boards bid =
        some ⟨board.shapes.set i (objAssign shape changes),
          board.ops ++ [⟨.update (.str S) changes
            (some (changes.map (fun p => (p.1, getField shape p.1)))),
            cu, now⟩]⟩ := by
      simp [updatedState, lookupA_setA_self]
    have hF2 : (board.shapes.set i (objAssign shape changes)).find?
        (fun s => getField s "id" == Value.str S) = none := by
      apply List.find?_eq_none.mpr
      intro a ha
      simpa using hgone a ha
    simp [handleDeleteShape, hB2, hF2]

theorem c10_update_can_overwrite_id_witness :
    (connA.currentBoardId = some "B" ∧
     lookupA stS1.boards "B" = some ⟨[shapeS1], []⟩ ∧
     findWithIdx [shapeS1] (fun s => getField s "id" == Value.str "s1") =
       some (0, shapeS1) ∧
     (lookupA (cleanExpiredLocks stS1.locks "B" 1) "B").bind
       (fun t => lookupA t "s1") = none ∧
     lookupA [("id", Value.str "zz")] "id" = some (Value.str "zz") ∧
     keysNodup [("id", Value.str "zz")] ∧
     (∀ s ∈ [shapeS1].set 0 (objAssign shapeS1 [("id", Value.str "zz")]),
       getField s "id" ≠ Value.str "s1")) ∧
    (handleUpdateShape connA stS1 "s1" [("id", Value.str "zz")] 1 =
      (connA, updatedState stS1 "B" ⟨[shapeS1], []⟩ 0 shapeS1 "s1"
        [("id", Value.str "zz")] connA.userId 1,
       [.shapeUpdated "s1" [("id", Value.str "zz")]]) ∧
     getField (objAssign shapeS1 [("id", Value.str "zz")]) "id" =
       Value.str "zz" ∧
     handleUpdateShape connA (updatedState stS1 "B" ⟨[shapeS1], []⟩ 0 shapeS1
         "s1" [("id", Value.str "zz")] connA.userId 1) "s1" [] 2 =
      (connA, updatedState stS1 "B" ⟨[shapeS1], []⟩ 0 shapeS1 "s1"
        [("id", Value.str "zz")] connA.userId 1,
       [.error "Shape not found"]) ∧
     handleDeleteShape connA (updatedState stS1 "B" ⟨[shapeS1], []⟩ 0 shapeS1
         "s1" [("id", Value.str "zz")] connA.userId 1) "s1" 2 =
      (connA, updatedState stS1 "B" ⟨[shapeS1], []⟩ 0 shapeS1 "s1"
        [("id", Value.str "zz")] connA.userId 1,
       [.error "Shape not found"])) :=
  ⟨⟨by decide, by decide, by decide, by decide, by decide, by decide,
    by decide⟩,
   c10_update_can_overwrite_id connA stS1 "B" "s1" ⟨[shapeS1], []⟩ 0 shapeS1
     [("id", Value.str "zz")] [] (Value.str "zz") 1 2
     (by decide) (by decide) (by decide) (by decide) (by decide) (by decide)
     (by decide)⟩

end IdeaCanvas
